import Mathlib

/-!
# The `commands/type/sync` command of the Sketch plugin

Shallow embedding of `packages/sketch/src/commands/type/sync.js`:

```js
export function sync() {
  command('commands/type/sync', () => {
    const document = Document.getSelectedDocument();
    syncTextStyles(document);
  });
}
```

The module imports three collaborators (`command`, `Document.getSelectedDocument`,
`syncTextStyles`); none of them is defined in this file of the repository, so the
embedding takes them as parameters (`Imports`).  Calls are JavaScript calls: a
callee receives an argument list, and a call completes either normally with a
value or abruptly with a thrown value.  The host state survives an abrupt
completion, as it does in JavaScript.
-/

namespace CarbonSketch

/-! ## Values, completions and the host -/

/-- JavaScript values that cross the boundary of this module.  Document handles
are object references; a missing selection is `undefined` or `null`. -/
inductive Value where
  | undefined
  | null
  | bool (b : Bool)
  | number (n : Int)
  | string (s : String)
  | object (ref : Nat)
  deriving DecidableEq

/-- What a recording double keeps of one argument: a plain value as it is, a
function by its declared number of parameters (its `length`). -/
inductive Shape where
  | value (v : Value)
  | function (arity : Nat)
  deriving DecidableEq

/-- One recorded call of a collaborator, with the argument list it received. -/
inductive Call where
  | command (args : List Shape)
  | getSelectedDocument (args : List Value)
  | syncTextStyles (args : List Value)
  deriving DecidableEq

/-- Host state: `world` is everything the collaborators own (the documents and
the current selection among them), `calls` is the record kept by the doubles. -/
structure Host (σ : Type) where
  world : σ
  calls : List Call

/-- A JavaScript computation over the host: it completes normally (`.ok v`) or
throws (`.error e`), and leaves a host state in both cases. -/
def Run (σ α : Type) : Type := Host σ → Except Value α × Host σ

instance (σ : Type) : Monad (Run σ) where
  pure a := fun s => (Except.ok a, s)
  bind m f := fun s =>
    match m s with
    | (Except.ok a, t) => f a t
    | (Except.error e, t) => (Except.error e, t)

/-- An argument of a call of `command`: a value, or a function with its
declared number of parameters and its body. -/
inductive Arg (σ : Type) where
  | value (v : Value)
  | function (arity : Nat) (body : List Value → Run σ Value)

/-- The part of an argument that a recording double keeps. -/
def Arg.shape {σ : Type} : Arg σ → Shape
  | Arg.value v => Shape.value v
  | Arg.function arity _ => Shape.function arity

/-- The namespace object `Document` imported from `sketch/dom`. -/
structure DocumentModule (σ : Type) where
  getSelectedDocument : List Value → Run σ Value

/-- The three imports of `sync.js`. -/
structure Imports (σ : Type) where
  Document : DocumentModule σ
  command : List (Arg σ) → Run σ Value
  syncTextStyles : List Value → Run σ Value

/-! ## The source -/

/-- The arrow function of `sync.js`, lines 13-16: it declares no parameter and
ignores whatever arguments it is called with, reads the selected document,
passes it to `syncTextStyles`, and falls off the end of its block. -/
def syncOperation {σ : Type} (env : Imports σ) (_arguments : List Value) : Run σ Value := do
  let document ← env.Document.getSelectedDocument []
  let _ ← env.syncTextStyles [document]
  pure Value.undefined

/-- The exported function `sync` of `sync.js`, lines 12-17: one call of `command`
with the identifier and the arrow function; the result of `command` is dropped
and `sync` falls off the end of its body. -/
def sync {σ : Type} (env : Imports σ) : Run σ Value := do
  let _ ← env.command
    [Arg.value (Value.string "commands/type/sync"), Arg.function 0 (syncOperation env)]
  pure Value.undefined

/-! ## Recording doubles for the collaborators -/

/-- Append one call to the record. -/
def record {σ : Type} (c : Call) : Run σ Unit :=
  fun s => (Except.ok (), { s with calls := s.calls ++ [c] })

/-- Run a collaborator that only knows the world, leaving the record alone. -/
def onWorld {σ : Type} (f : σ → Except Value Value × σ) : Run σ Value :=
  fun s => ((f s.world).1, { s with world := (f s.world).2 })

/-- The imports as doubles: each one records the call it receives and then behaves
as the given harness `h`, provider `p` and routine `r`.  The provider and the
routine act on the world; the harness acts on the whole host, because it is the
one that runs the operation it is handed. -/
def doubles {σ : Type} (h : List (Arg σ) → Run σ Value)
    (p r : List Value → σ → Except Value Value × σ) : Imports σ where
  Document := { getSelectedDocument := fun args => do
      record (Call.getSelectedDocument args)
      onWorld (p args) }
  command := fun args => do
    record (Call.command (args.map Arg.shape))
    h args
  syncTextStyles := fun args => do
    record (Call.syncTextStyles args)
    onWorld (r args)

/-- The argument lists of the recorded calls of `syncTextStyles`, oldest first. -/
def syncTextStylesCalls : List Call → List (List Value)
  | [] => []
  | Call.syncTextStyles args :: cs => args :: syncTextStylesCalls cs
  | _ :: cs => syncTextStylesCalls cs

/-- The argument lists of the recorded calls of `getSelectedDocument`. -/
def getSelectedDocumentCalls : List Call → List (List Value)
  | [] => []
  | Call.getSelectedDocument args :: cs => args :: getSelectedDocumentCalls cs
  | _ :: cs => getSelectedDocumentCalls cs

/-- The argument lists of the recorded calls of `command`. -/
def commandCalls : List Call → List (List Shape)
  | [] => []
  | Call.command args :: cs => args :: commandCalls cs
  | _ :: cs => commandCalls cs

/-! ## Harnesses -/

/-- What a harness does when it runs the operation it was handed: call the second
argument with no arguments.  Calling something that is not a function throws. -/
def invoke {σ : Type} : List (Arg σ) → Run σ Value
  | [_, Arg.function _ body] => body []
  | _ => fun s => (Except.error (Value.string "TypeError: fn is not a function"), s)

/-- The host state after `n` runs of the operation, each run starting where the
previous one stopped, whether it returned or threw. -/
def runs {σ : Type} (args : List (Arg σ)) : Nat → Host σ → Host σ
  | 0, s => s
  | n + 1, s => runs args n (invoke args s).2

/-- The harness `h` runs the operation it is given exactly `n` times and does
nothing else to the host. -/
def Runs {σ : Type} (n : Nat) (h : List (Arg σ) → Run σ Value) : Prop :=
  ∀ args s, (h args s).2 = runs args n s

/-- The harness `h` lets a failure of its operation through unchanged. -/
def Propagates {σ : Type} (h : List (Arg σ) → Run σ Value) : Prop :=
  ∀ args s e, (invoke args s).1 = Except.error e → (h args s).1 = Except.error e

/-- The harness `h` returns normally whenever its operation does. -/
def ReturnsNormally {σ : Type} (h : List (Arg σ) → Run σ Value) : Prop :=
  ∀ args s v, (invoke args s).1 = Except.ok v → ∃ u, (h args s).1 = Except.ok u

/-- A harness that runs the operation once and lets its failure through. -/
def passThrough {σ : Type} (args : List (Arg σ)) : Run σ Value := do
  let _ ← invoke args
  pure Value.undefined

/-- Modelled from the spec: the invocation harness `command` imported from
`../command`, which is not among the sources; the spec has it run the given
zero-argument operation under a named diagnostic context, catching and reporting
any failure.  The report goes to the host user interface, which is no part of
the modelled host state. -/
def catching {σ : Type} (args : List (Arg σ)) : Run σ Value :=
  fun s =>
    match invoke args s with
    | (Except.ok _, t) => (Except.ok Value.undefined, t)
    | (Except.error _, t) => (Except.ok Value.undefined, t)

/-- A harness that never runs the operation it is given. -/
def neverRuns {σ : Type} (_args : List (Arg σ)) : Run σ Value :=
  fun s => (Except.ok Value.undefined, s)

/-- A harness that runs the operation `n` times, going on after a failure. -/
def repeating {σ : Type} (n : Nat) (args : List (Arg σ)) : Run σ Value :=
  fun s => (Except.ok Value.undefined, runs args n s)

/-- The host state after `k` invocations of `sync`, dispatched one after the
other by the host, each one starting where the previous one stopped. -/
def invocations {σ : Type} (env : Imports σ) : Nat → Host σ → Host σ
  | 0, s => s
  | k + 1, s => invocations env k (sync env s).2

/-! ## What `n` runs of the operation should leave in the record

These two definitions follow the provider and the routine alone, run after run;
they do not mention `sync`. -/

/-- The calls that `n` runs of "ask the provider, then hand what it returned to
the routine" make, run after run: a run in which the provider returns `d` makes
the two calls `getSelectedDocument()` and `syncTextStyles(d)`; a run in which the
provider throws makes the call of the provider only.  Each run starts in the
world the previous one left. -/
def runsTrace {σ : Type} (p r : List Value → σ → Except Value Value × σ) :
    Nat → σ → List Call
  | 0, _ => []
  | n + 1, w =>
    match p [] w with
    | (Except.ok d, w1) =>
      Call.getSelectedDocument [] :: Call.syncTextStyles [d] ::
        runsTrace p r n (r [d] w1).2
    | (Except.error _, w1) => Call.getSelectedDocument [] :: runsTrace p r n w1

/-- Whether the provider returns normally in every one of `n` runs that start
in the world `w`. -/
def returnsInEveryRun {σ : Type} (p r : List Value → σ → Except Value Value × σ) :
    Nat → σ → Bool
  | 0, _ => true
  | n + 1, w =>
    match p [] w with
    | (Except.ok d, w1) => returnsInEveryRun p r n (r [d] w1).2
    | (Except.error _, _) => false

/-! ## Example collaborators

The world of the examples is a number, from which the provider `selectedHandle`
reads the reference of the selected document. -/

/-- A provider that returns the handle of the selected document. -/
def selectedHandle (_args : List Value) (w : Nat) : Except Value Value × Nat :=
  (Except.ok (Value.object w), w)

/-- A provider for a host without a selected document. -/
def missingSelection (_args : List Value) (w : Nat) : Except Value Value × Nat :=
  (Except.ok Value.null, w)

/-- A provider that throws. -/
def throwingProvider (_args : List Value) (w : Nat) : Except Value Value × Nat :=
  (Except.error (Value.string "no document"), w)

/-- A provider that throws in world 103 only, and moves the world on when it
does. -/
def flakyProvider (_args : List Value) (w : Nat) : Except Value Value × Nat :=
  if w = 103 then (Except.error (Value.string "no document"), w + 1)
  else (Except.ok (Value.object w), w)

/-- A routine that returns a number and changes the world. -/
def countingRoutine (_args : List Value) (w : Nat) : Except Value Value × Nat :=
  (Except.ok (Value.number 7), w + 100)

/-- A routine that throws. -/
def throwingRoutine (_args : List Value) (w : Nat) : Except Value Value × Nat :=
  (Except.error (Value.string "boom"), w)

/-- A host with document 3 selected and nothing recorded yet. -/
def freshHost : Host Nat := { world := 3, calls := [] }

/-! ## One run of the operation -/

/-- The operation, run against the doubles, when the provider throws: the failure
is the completion, and only the call of the provider is recorded. -/
theorem syncOperation_provider_error {σ : Type} (h : List (Arg σ) → Run σ Value)
    (p r : List Value → σ → Except Value Value × σ) (args : List Value) (s : Host σ)
    (e : Value) (hp : (p [] s.world).1 = Except.error e) :
    syncOperation (doubles h p r) args s =
      (Except.error e,
        { world := (p [] s.world).2, calls := s.calls ++ [Call.getSelectedDocument []] }) := by
  simp only [syncOperation, doubles, bind, record, onWorld, hp]

/-- The operation, run against the doubles, when the provider returns `d`: the
host is left as the routine leaves it, and both calls are recorded in order. -/
theorem syncOperation_provider_ok_state {σ : Type} (h : List (Arg σ) → Run σ Value)
    (p r : List Value → σ → Except Value Value × σ) (args : List Value) (s : Host σ)
    (d : Value) (hp : (p [] s.world).1 = Except.ok d) :
    (syncOperation (doubles h p r) args s).2 =
      { world := (r [d] (p [] s.world).2).2,
        calls := s.calls ++ [Call.getSelectedDocument [], Call.syncTextStyles [d]] } := by
  simp only [syncOperation, doubles, bind, record, onWorld, hp]
  cases hr : (r [d] (p [] s.world).2).1 <;> simp [pure]

theorem syncOperation_routine_error {σ : Type} (h : List (Arg σ) → Run σ Value)
    (p r : List Value → σ → Except Value Value × σ) (args : List Value) (s : Host σ)
    (d e : Value) (hp : (p [] s.world).1 = Except.ok d)
    (hr : (r [d] (p [] s.world).2).1 = Except.error e) :
    (syncOperation (doubles h p r) args s).1 = Except.error e := by
  simp only [syncOperation, doubles, bind, record, onWorld, hp, hr]

theorem syncOperation_routine_ok {σ : Type} (h : List (Arg σ) → Run σ Value)
    (p r : List Value → σ → Except Value Value × σ) (args : List Value) (s : Host σ)
    (d v : Value) (hp : (p [] s.world).1 = Except.ok d)
    (hr : (r [d] (p [] s.world).2).1 = Except.ok v) :
    (syncOperation (doubles h p r) args s).1 = Except.ok Value.undefined := by
  simp only [syncOperation, doubles, bind, record, onWorld, hp, hr, pure]

/-! ## The record under concatenation -/

theorem syncTextStylesCalls_append (xs ys : List Call) :
    syncTextStylesCalls (xs ++ ys) = syncTextStylesCalls xs ++ syncTextStylesCalls ys := by
  induction xs with
  | nil => rfl
  | cons c cs ih => cases c <;> simp [syncTextStylesCalls, ih]

theorem getSelectedDocumentCalls_append (xs ys : List Call) :
    getSelectedDocumentCalls (xs ++ ys) =
      getSelectedDocumentCalls xs ++ getSelectedDocumentCalls ys := by
  induction xs with
  | nil => rfl
  | cons c cs ih => cases c <;> simp [getSelectedDocumentCalls, ih]

theorem commandCalls_append (xs ys : List Call) :
    commandCalls (xs ++ ys) = commandCalls xs ++ commandCalls ys := by
  induction xs with
  | nil => rfl
  | cons c cs ih => cases c <;> simp [commandCalls, ih]

/-! ## The harnesses of this file -/

theorem passThrough_runs_once {σ : Type} : Runs 1 (passThrough : List (Arg σ) → Run σ Value) := by
  intro args s
  simp only [passThrough, bind, runs]
  cases hi : invoke args s with
  | mk c t => cases c <;> simp [pure]

theorem passThrough_propagates {σ : Type} :
    Propagates (passThrough : List (Arg σ) → Run σ Value) := by
  intro args s e he
  simp only [passThrough, bind]
  cases hi : invoke args s with
  | mk c t =>
    rw [hi] at he
    cases c with
    | error x => simpa using he
    | ok x => simp at he

theorem passThrough_returnsNormally {σ : Type} :
    ReturnsNormally (passThrough : List (Arg σ) → Run σ Value) := by
  intro args s v hv
  simp only [passThrough, bind]
  cases hi : invoke args s with
  | mk c t =>
    rw [hi] at hv
    cases c with
    | error x => simp at hv
    | ok x => exact ⟨Value.undefined, rfl⟩

theorem catching_runs_once {σ : Type} : Runs 1 (catching : List (Arg σ) → Run σ Value) := by
  intro args s
  simp only [catching, runs]
  cases hi : invoke args s with
  | mk c t => cases c <;> rfl

theorem catching_returnsNormally {σ : Type} :
    ReturnsNormally (catching : List (Arg σ) → Run σ Value) := by
  intro args s v _
  simp only [catching]
  cases hi : invoke args s with
  | mk c t => cases c <;> exact ⟨Value.undefined, rfl⟩

theorem neverRuns_runs_zero {σ : Type} : Runs 0 (neverRuns : List (Arg σ) → Run σ Value) :=
  fun _ _ => rfl

theorem repeating_runs {σ : Type} (n : Nat) :
    Runs n (repeating n : List (Arg σ) → Run σ Value) :=
  fun _ _ => rfl

/-! ## One invocation of `sync` -/

/-- The host after `sync()` is the host the harness leaves when it is called, in
the state where its call has been recorded, with the identifier and the
operation. -/
theorem sync_state {σ : Type} (h : List (Arg σ) → Run σ Value)
    (p r : List Value → σ → Except Value Value × σ) (s : Host σ) :
    (sync (doubles h p r) s).2 =
      (h [Arg.value (Value.string "commands/type/sync"),
          Arg.function 0 (syncOperation (doubles h p r))]
        { world := s.world,
          calls := s.calls ++ [Call.command
            [Shape.value (Value.string "commands/type/sync"), Shape.function 0]] }).2 := by
  simp only [sync, doubles, bind, record, List.map, Arg.shape]
  split <;> simp_all [pure]

/-- The completion of `sync()` is the completion of the harness, its value
replaced by `undefined`. -/
theorem sync_result {σ : Type} (h : List (Arg σ) → Run σ Value)
    (p r : List Value → σ → Except Value Value × σ) (s : Host σ) :
    (sync (doubles h p r) s).1 =
      match (h [Arg.value (Value.string "commands/type/sync"),
          Arg.function 0 (syncOperation (doubles h p r))]
        { world := s.world,
          calls := s.calls ++ [Call.command
            [Shape.value (Value.string "commands/type/sync"), Shape.function 0]] }).1 with
      | Except.ok _ => Except.ok Value.undefined
      | Except.error e => Except.error e := by
  simp only [sync, doubles, bind, record, List.map, Arg.shape]
  split <;> simp_all [pure]

/-- Under a harness that runs its operation once, with the provider returning
`d`: the host after `sync()`. -/
theorem sync_once_state {σ : Type} (h : List (Arg σ) → Run σ Value)
    (p r : List Value → σ → Except Value Value × σ) (s : Host σ) (d : Value)
    (hh : Runs 1 h) (hp : (p [] s.world).1 = Except.ok d) :
    (sync (doubles h p r) s).2 =
      { world := (r [d] (p [] s.world).2).2,
        calls := s.calls ++ [Call.command
            [Shape.value (Value.string "commands/type/sync"), Shape.function 0],
          Call.getSelectedDocument [], Call.syncTextStyles [d]] } := by
  rw [sync_state, hh]
  simp only [runs, invoke]
  rw [syncOperation_provider_ok_state h p r []
    { world := s.world,
      calls := s.calls ++ [Call.command
        [Shape.value (Value.string "commands/type/sync"), Shape.function 0]] } d hp]
  simp

/-! ## Several runs of the operation -/

/-- One run of the operation records the call of the provider and, when the
provider returned some `d`, the call of the routine with `[d]` after it. -/
theorem syncOperation_calls {σ : Type} (h : List (Arg σ) → Run σ Value)
    (p r : List Value → σ → Except Value Value × σ) (args : List Value) (s : Host σ) :
    ((∃ e, (p [] s.world).1 = Except.error e) ∧
        (syncOperation (doubles h p r) args s).2.calls =
          s.calls ++ [Call.getSelectedDocument []]) ∨
      (∃ d, (p [] s.world).1 = Except.ok d ∧
        (syncOperation (doubles h p r) args s).2.calls =
          s.calls ++ [Call.getSelectedDocument [], Call.syncTextStyles [d]]) := by
  cases hp : (p [] s.world).1 with
  | error e =>
    left
    exact ⟨⟨e, rfl⟩, by rw [syncOperation_provider_error h p r args s e hp]⟩
  | ok d =>
    right
    exact ⟨d, rfl, by rw [syncOperation_provider_ok_state h p r args s d hp]⟩

theorem runs_commandCalls {σ : Type} (h : List (Arg σ) → Run σ Value)
    (p r : List Value → σ → Except Value Value × σ) (x : Arg σ) (a : Nat) (n : Nat)
    (s : Host σ) :
    commandCalls (runs [x, Arg.function a (syncOperation (doubles h p r))] n s).calls =
      commandCalls s.calls := by
  induction n generalizing s with
  | zero => rfl
  | succ n ih =>
    simp only [runs, invoke]
    rw [ih]
    rcases syncOperation_calls h p r [] s with ⟨_, hc⟩ | ⟨d, _, hc⟩ <;>
      rw [hc, commandCalls_append] <;> simp [commandCalls]

/-- The record after `n` runs of the operation of `sync` is the old record
followed by `runsTrace`. -/
theorem runs_calls {σ : Type} (h : List (Arg σ) → Run σ Value)
    (p r : List Value → σ → Except Value Value × σ) (x : Arg σ) (a : Nat) (n : Nat)
    (s : Host σ) :
    (runs [x, Arg.function a (syncOperation (doubles h p r))] n s).calls =
      s.calls ++ runsTrace p r n s.world := by
  induction n generalizing s with
  | zero => simp [runs, runsTrace]
  | succ n ih =>
    simp only [runs, invoke]
    rw [ih]
    cases hp : p [] s.world with
    | mk c w1 =>
      cases c with
      | error e =>
        rw [syncOperation_provider_error h p r [] s e (by rw [hp])]
        simp [runsTrace, hp]
      | ok d =>
        rw [syncOperation_provider_ok_state h p r [] s d (by rw [hp])]
        simp [runsTrace, hp]

theorem runsTrace_getSelectedDocumentCalls {σ : Type}
    (p r : List Value → σ → Except Value Value × σ) (n : Nat) (w : σ) :
    getSelectedDocumentCalls (runsTrace p r n w) = List.replicate n [] := by
  induction n generalizing w with
  | zero => rfl
  | succ n ih =>
    cases hp : p [] w with
    | mk c w1 =>
      cases c <;> simp [runsTrace, hp, getSelectedDocumentCalls, ih, List.replicate_succ]

theorem runsTrace_syncTextStylesCalls_le {σ : Type}
    (p r : List Value → σ → Except Value Value × σ) (n : Nat) (w : σ) :
    (syncTextStylesCalls (runsTrace p r n w)).length ≤ n := by
  induction n generalizing w with
  | zero => simp [runsTrace, syncTextStylesCalls]
  | succ n ih =>
    cases hp : p [] w with
    | mk c w1 =>
      cases c with
      | error e =>
        simp only [runsTrace, hp, syncTextStylesCalls]
        exact Nat.le_succ_of_le (ih w1)
      | ok d =>
        simp only [runsTrace, hp, syncTextStylesCalls, List.length_cons]
        exact Nat.succ_le_succ (ih _)

theorem runsTrace_syncTextStylesCalls_eq_iff {σ : Type}
    (p r : List Value → σ → Except Value Value × σ) (n : Nat) (w : σ) :
    (syncTextStylesCalls (runsTrace p r n w)).length = n ↔
      returnsInEveryRun p r n w = true := by
  induction n generalizing w with
  | zero => simp [runsTrace, syncTextStylesCalls, returnsInEveryRun]
  | succ n ih =>
    cases hp : p [] w with
    | mk c w1 =>
      cases c with
      | error e =>
        simp only [runsTrace, hp, syncTextStylesCalls, returnsInEveryRun]
        have hle := runsTrace_syncTextStylesCalls_le p r n w1
        constructor
        · intro heq
          omega
        · intro hf
          cases hf
      | ok d =>
        simp only [runsTrace, hp, syncTextStylesCalls, returnsInEveryRun, List.length_cons]
        rw [← ih]
        omega

/-- The record of `command` calls after one `sync()` under a harness that runs
its operation `n` times. -/
theorem sync_commandCalls {σ : Type} (n : Nat) (h : List (Arg σ) → Run σ Value)
    (p r : List Value → σ → Except Value Value × σ) (s : Host σ) (hh : Runs n h) :
    commandCalls (sync (doubles h p r) s).2.calls =
      commandCalls s.calls ++
        [[Shape.value (Value.string "commands/type/sync"), Shape.function 0]] := by
  rw [sync_state, hh, runs_commandCalls, commandCalls_append]
  simp [commandCalls]

/-! ## The claims -/

/-- C1: with the three imports as recording doubles, if the provider returns the
handle `d` and the harness runs the operation it is given exactly once, then one
call of `sync()` adds exactly one call of `syncTextStyles` to the record, and the
argument list of that call is `[d]`. -/
theorem sync_calls_routine_once_with_document {σ : Type}
    (h : List (Arg σ) → Run σ Value) (p r : List Value → σ → Except Value Value × σ)
    (s : Host σ) (d : Value) (hh : Runs 1 h) (hp : (p [] s.world).1 = Except.ok d) :
    syncTextStylesCalls (sync (doubles h p r) s).2.calls =
      syncTextStylesCalls s.calls ++ [[d]] := by
  rw [sync_once_state h p r s d hh hp, syncTextStylesCalls_append]
  rfl

theorem sync_calls_routine_once_with_document_witness :
    Runs 1 (passThrough : List (Arg Nat) → Run Nat Value) ∧
      (selectedHandle [] freshHost.world).1 = Except.ok (Value.object 3) ∧
      syncTextStylesCalls (sync (doubles passThrough selectedHandle countingRoutine)
        freshHost).2.calls = syncTextStylesCalls freshHost.calls ++ [[Value.object 3]] :=
  ⟨passThrough_runs_once, rfl,
    sync_calls_routine_once_with_document passThrough selectedHandle countingRoutine
      freshHost (Value.object 3) passThrough_runs_once rfl⟩

/-- C2: if the provider returns an empty handle (`null` or `undefined`) and the
harness runs its operation exactly once, `sync()` adds no guard: the record gains
exactly one call of `syncTextStyles`, whose argument list is that same empty
value, and the world is left as the routine leaves it when called with it. -/
theorem sync_passes_empty_handle_unguarded {σ : Type}
    (h : List (Arg σ) → Run σ Value) (p r : List Value → σ → Except Value Value × σ)
    (s : Host σ) (d : Value) (hd : d = Value.null ∨ d = Value.undefined)
    (hh : Runs 1 h) (hp : (p [] s.world).1 = Except.ok d) :
    syncTextStylesCalls (sync (doubles h p r) s).2.calls =
        syncTextStylesCalls s.calls ++ [[d]] ∧
      (sync (doubles h p r) s).2.world = (r [d] (p [] s.world).2).2 := by
  rcases hd with rfl | rfl <;>
    rw [sync_once_state h p r s _ hh hp, syncTextStylesCalls_append] <;>
    exact ⟨rfl, rfl⟩

theorem sync_passes_empty_handle_unguarded_witness :
    (Value.null = Value.null ∨ Value.null = Value.undefined) ∧
      Runs 1 (catching : List (Arg Nat) → Run Nat Value) ∧
      (missingSelection [] freshHost.world).1 = Except.ok Value.null ∧
      syncTextStylesCalls (sync (doubles catching missingSelection countingRoutine)
        freshHost).2.calls = syncTextStylesCalls freshHost.calls ++ [[Value.null]] ∧
      (sync (doubles catching missingSelection countingRoutine) freshHost).2.world =
        (countingRoutine [Value.null] (missingSelection [] freshHost.world).2).2 :=
  ⟨Or.inl rfl, catching_runs_once, rfl,
    sync_passes_empty_handle_unguarded catching missingSelection countingRoutine
      freshHost Value.null (Or.inl rfl) catching_runs_once rfl⟩

/-- C3: if `syncTextStyles` throws `e` when called with the selected document,
`sync` does not suppress it: the operation that `sync` hands to the harness throws
exactly `e` to its caller, the enclosing harness, whatever that harness is; and
`sync()` throws exactly `e` in turn under every harness that lets the failure of
its operation through. -/
theorem sync_routine_failure_reaches_harness {σ : Type}
    (h : List (Arg σ) → Run σ Value) (p r : List Value → σ → Except Value Value × σ)
    (args : List Value) (s : Host σ) (d e : Value)
    (hp : (p [] s.world).1 = Except.ok d)
    (hr : (r [d] (p [] s.world).2).1 = Except.error e) :
    (syncOperation (doubles h p r) args s).1 = Except.error e ∧
      (Propagates h → (sync (doubles h p r) s).1 = Except.error e) := by
  refine ⟨syncOperation_routine_error h p r args s d e hp hr, fun hh => ?_⟩
  rw [sync_result, hh]
  exact syncOperation_routine_error h p r [] _ d e hp hr

theorem sync_routine_failure_reaches_harness_witness :
    (selectedHandle [] freshHost.world).1 = Except.ok (Value.object 3) ∧
      (throwingRoutine [Value.object 3] (selectedHandle [] freshHost.world).2).1 =
        Except.error (Value.string "boom") ∧
      Propagates (passThrough : List (Arg Nat) → Run Nat Value) ∧
      (syncOperation (doubles catching selectedHandle throwingRoutine) [] freshHost).1 =
        Except.error (Value.string "boom") ∧
      (syncOperation (doubles passThrough selectedHandle throwingRoutine) [] freshHost).1 =
        Except.error (Value.string "boom") ∧
      (sync (doubles passThrough selectedHandle throwingRoutine) freshHost).1 =
        Except.error (Value.string "boom") :=
  ⟨rfl, rfl, passThrough_propagates,
    (sync_routine_failure_reaches_harness catching selectedHandle throwingRoutine []
      freshHost (Value.object 3) (Value.string "boom") rfl rfl).1,
    (sync_routine_failure_reaches_harness passThrough selectedHandle throwingRoutine []
      freshHost (Value.object 3) (Value.string "boom") rfl rfl).1,
    (sync_routine_failure_reaches_harness passThrough selectedHandle throwingRoutine []
      freshHost (Value.object 3) (Value.string "boom") rfl rfl).2 passThrough_propagates⟩

/-- C4: if the provider throws `e`, the operation that `sync` hands to the harness
throws exactly `e`, and that run records no call of `syncTextStyles`: the only
call it records is the one of the provider. -/
theorem syncOperation_provider_failure {σ : Type}
    (h : List (Arg σ) → Run σ Value) (p r : List Value → σ → Except Value Value × σ)
    (args : List Value) (s : Host σ) (e : Value)
    (hp : (p [] s.world).1 = Except.error e) :
    (syncOperation (doubles h p r) args s).1 = Except.error e ∧
      syncTextStylesCalls (syncOperation (doubles h p r) args s).2.calls =
        syncTextStylesCalls s.calls ∧
      (syncOperation (doubles h p r) args s).2.calls =
        s.calls ++ [Call.getSelectedDocument []] := by
  rw [syncOperation_provider_error h p r args s e hp, syncTextStylesCalls_append]
  simp [syncTextStylesCalls]

theorem syncOperation_provider_failure_witness :
    (throwingProvider [] freshHost.world).1 = Except.error (Value.string "no document") ∧
      (syncOperation (doubles passThrough throwingProvider countingRoutine) []
        freshHost).1 = Except.error (Value.string "no document") ∧
      syncTextStylesCalls (syncOperation (doubles passThrough throwingProvider
        countingRoutine) [] freshHost).2.calls = syncTextStylesCalls freshHost.calls ∧
      (syncOperation (doubles passThrough throwingProvider countingRoutine) []
        freshHost).2.calls = freshHost.calls ++ [Call.getSelectedDocument []] :=
  ⟨rfl,
    syncOperation_provider_failure passThrough throwingProvider countingRoutine []
      freshHost (Value.string "no document") rfl⟩

/-- C5: every invocation of `sync()` calls the harness with the same identifier:
whatever the host state, the provider, the routine and the number `k` of
invocations, each invocation adds one call of `command` to the record, and its
first argument is the string "commands/type/sync" (the second is a function of
no parameters).  The harness is any one that runs its operation some number of
times. -/
theorem sync_identifier_stable {σ : Type} (n : Nat) (h : List (Arg σ) → Run σ Value)
    (p r : List Value → σ → Except Value Value × σ) (s : Host σ) (k : Nat)
    (hh : Runs n h) :
    commandCalls (invocations (doubles h p r) k s).calls =
      commandCalls s.calls ++ List.replicate k
        [Shape.value (Value.string "commands/type/sync"), Shape.function 0] := by
  induction k generalizing s with
  | zero => simp [invocations]
  | succ k ih =>
    simp only [invocations]
    rw [ih, sync_commandCalls n h p r s hh, List.replicate_succ]
    simp

theorem sync_identifier_stable_witness :
    Runs 2 (repeating 2 : List (Arg Nat) → Run Nat Value) ∧
      commandCalls (invocations (doubles (repeating 2) selectedHandle countingRoutine) 3
        freshHost).calls =
      commandCalls freshHost.calls ++ List.replicate 3
        [Shape.value (Value.string "commands/type/sync"), Shape.function 0] :=
  ⟨repeating_runs 2,
    sync_identifier_stable 2 (repeating 2) selectedHandle countingRoutine freshHost 3
      (repeating_runs 2)⟩

/-- C6: `sync` does nothing to the document but pass its handle on: when the
provider returns `d` and leaves the world alone and the harness runs its
operation once, the world after `sync()` is the world that `syncTextStyles`
produces from `[d]`; in particular, if the routine leaves the world unchanged, so
does `sync()`. -/
theorem sync_world_is_routine_world {σ : Type}
    (h : List (Arg σ) → Run σ Value) (p r : List Value → σ → Except Value Value × σ)
    (s : Host σ) (d : Value) (hh : Runs 1 h)
    (hp : p [] s.world = (Except.ok d, s.world)) :
    (sync (doubles h p r) s).2.world = (r [d] s.world).2 ∧
      ((r [d] s.world).2 = s.world → (sync (doubles h p r) s).2.world = s.world) := by
  have hw : (sync (doubles h p r) s).2.world = (r [d] s.world).2 := by
    rw [sync_once_state h p r s d hh (by rw [hp]), hp]
  exact ⟨hw, fun hr => hw.trans hr⟩

theorem sync_world_is_routine_world_witness :
    Runs 1 (passThrough : List (Arg Nat) → Run Nat Value) ∧
      selectedHandle [] freshHost.world = (Except.ok (Value.object 3), freshHost.world) ∧
      (sync (doubles passThrough selectedHandle countingRoutine) freshHost).2.world =
        (countingRoutine [Value.object 3] freshHost.world).2 ∧
      (throwingRoutine [Value.object 3] freshHost.world).2 = freshHost.world ∧
      (sync (doubles passThrough selectedHandle throwingRoutine) freshHost).2.world =
        freshHost.world :=
  ⟨passThrough_runs_once, rfl,
    (sync_world_is_routine_world passThrough selectedHandle countingRoutine freshHost
      (Value.object 3) passThrough_runs_once rfl).1,
    rfl,
    (sync_world_is_routine_world passThrough selectedHandle throwingRoutine freshHost
      (Value.object 3) passThrough_runs_once rfl).2 rfl⟩

/-- C7: when the provider and `syncTextStyles` both return normally, and the
harness returns normally whenever its operation does, `sync()` returns normally
with `undefined`, whatever value `v` the routine returned. -/
theorem sync_returns_undefined {σ : Type}
    (h : List (Arg σ) → Run σ Value) (p r : List Value → σ → Except Value Value × σ)
    (s : Host σ) (d v : Value) (hh : ReturnsNormally h)
    (hp : (p [] s.world).1 = Except.ok d)
    (hr : (r [d] (p [] s.world).2).1 = Except.ok v) :
    (sync (doubles h p r) s).1 = Except.ok Value.undefined := by
  rw [sync_result]
  obtain ⟨u, hu⟩ := hh
    [Arg.value (Value.string "commands/type/sync"),
      Arg.function 0 (syncOperation (doubles h p r))]
    { world := s.world,
      calls := s.calls ++ [Call.command
        [Shape.value (Value.string "commands/type/sync"), Shape.function 0]] }
    Value.undefined (syncOperation_routine_ok h p r [] _ d v hp hr)
  rw [hu]

theorem sync_returns_undefined_witness :
    ReturnsNormally (passThrough : List (Arg Nat) → Run Nat Value) ∧
      (selectedHandle [] freshHost.world).1 = Except.ok (Value.object 3) ∧
      (countingRoutine [Value.object 3] (selectedHandle [] freshHost.world).2).1 =
        Except.ok (Value.number 7) ∧
      (sync (doubles passThrough selectedHandle countingRoutine) freshHost).1 =
        Except.ok Value.undefined :=
  ⟨passThrough_returnsNormally, rfl, rfl,
    sync_returns_undefined passThrough selectedHandle countingRoutine freshHost
      (Value.object 3) (Value.number 7) passThrough_returnsNormally rfl rfl⟩

/-- C8: the selected document is read at call time: if the provider returns `d1`
during a first `sync()` and, after the host has changed the world by `between`,
`d2` during a second `sync()`, the harness running its operation once each time,
then the record gains the call of `syncTextStyles` with `[d1]` and then the one
with `[d2]`; the second invocation does not reuse `d1`. -/
theorem sync_reads_selection_at_call_time {σ : Type}
    (h : List (Arg σ) → Run σ Value) (p r : List Value → σ → Except Value Value × σ)
    (s : Host σ) (between : σ → σ) (d1 d2 : Value) (hh : Runs 1 h)
    (hp1 : (p [] s.world).1 = Except.ok d1)
    (hp2 : (p [] (between (sync (doubles h p r) s).2.world)).1 = Except.ok d2) :
    syncTextStylesCalls (sync (doubles h p r) s).2.calls =
        syncTextStylesCalls s.calls ++ [[d1]] ∧
      syncTextStylesCalls (sync (doubles h p r)
        { world := between (sync (doubles h p r) s).2.world,
          calls := (sync (doubles h p r) s).2.calls }).2.calls =
        syncTextStylesCalls s.calls ++ [[d1], [d2]] := by
  have h1 : syncTextStylesCalls (sync (doubles h p r) s).2.calls =
      syncTextStylesCalls s.calls ++ [[d1]] := by
    rw [sync_once_state h p r s d1 hh hp1, syncTextStylesCalls_append]
    rfl
  refine ⟨h1, ?_⟩
  rw [sync_once_state h p r _ d2 hh hp2, syncTextStylesCalls_append, h1]
  simp [syncTextStylesCalls]

theorem sync_reads_selection_at_call_time_witness :
    Runs 1 (passThrough : List (Arg Nat) → Run Nat Value) ∧
      (selectedHandle [] freshHost.world).1 = Except.ok (Value.object 3) ∧
      (selectedHandle [] ((fun w => w + 1)
        (sync (doubles passThrough selectedHandle countingRoutine) freshHost).2.world)).1 =
        Except.ok (Value.object 104) ∧
      syncTextStylesCalls (sync (doubles passThrough selectedHandle countingRoutine)
        freshHost).2.calls = syncTextStylesCalls freshHost.calls ++ [[Value.object 3]] ∧
      syncTextStylesCalls (sync (doubles passThrough selectedHandle countingRoutine)
        { world := (fun w => w + 1)
            (sync (doubles passThrough selectedHandle countingRoutine) freshHost).2.world,
          calls :=
            (sync (doubles passThrough selectedHandle countingRoutine) freshHost).2.calls
        }).2.calls =
        syncTextStylesCalls freshHost.calls ++ [[Value.object 3], [Value.object 104]] :=
  ⟨passThrough_runs_once, rfl, rfl,
    sync_reads_selection_at_call_time passThrough selectedHandle countingRoutine freshHost
      (fun w => w + 1) (Value.object 3) (Value.object 104) passThrough_runs_once rfl rfl⟩

/-- C9: one run of the operation handed to the harness is a straight line: when
the provider returns `d` and the routine returns normally, the run adds exactly
the trace `getSelectedDocument()`, `syncTextStyles(d)` to the record, in that
order, so the provider is asked once and before the routine is called; the run
then returns `undefined`. -/
theorem syncOperation_trace {σ : Type}
    (h : List (Arg σ) → Run σ Value) (p r : List Value → σ → Except Value Value × σ)
    (args : List Value) (s : Host σ) (d v : Value)
    (hp : (p [] s.world).1 = Except.ok d)
    (hr : (r [d] (p [] s.world).2).1 = Except.ok v) :
    (syncOperation (doubles h p r) args s).2.calls =
        s.calls ++ [Call.getSelectedDocument [], Call.syncTextStyles [d]] ∧
      (syncOperation (doubles h p r) args s).1 = Except.ok Value.undefined := by
  refine ⟨?_, syncOperation_routine_ok h p r args s d v hp hr⟩
  rw [syncOperation_provider_ok_state h p r args s d hp]

theorem syncOperation_trace_witness :
    (selectedHandle [] freshHost.world).1 = Except.ok (Value.object 3) ∧
      (countingRoutine [Value.object 3] (selectedHandle [] freshHost.world).2).1 =
        Except.ok (Value.number 7) ∧
      (syncOperation (doubles neverRuns selectedHandle countingRoutine) []
        freshHost).2.calls =
        freshHost.calls ++
          [Call.getSelectedDocument [], Call.syncTextStyles [Value.object 3]] ∧
      (syncOperation (doubles neverRuns selectedHandle countingRoutine) []
        freshHost).1 = Except.ok Value.undefined :=
  ⟨rfl, rfl,
    syncOperation_trace neverRuns selectedHandle countingRoutine [] freshHost
      (Value.object 3) (Value.number 7) rfl rfl⟩

/-- C10, as stated, fails: under a harness that runs the operation once, with a
provider that throws, `sync()` calls the provider once and `syncTextStyles` not at
all, so the two are not each called once. -/
theorem sync_routine_not_called_when_provider_throws :
    Runs 1 (passThrough : List (Arg Nat) → Run Nat Value) ∧
      (getSelectedDocumentCalls (sync (doubles passThrough throwingProvider
        countingRoutine) freshHost).2.calls).length = 1 ∧
      (syncTextStylesCalls (sync (doubles passThrough throwingProvider
        countingRoutine) freshHost).2.calls).length = 0 :=
  ⟨passThrough_runs_once, rfl, rfl⟩

/-- C10, amended: `sync()` works through the harness only.  Under a harness that
runs the operation it is given `n` times (not at all for `n = 0`), one `sync()`
adds to the record exactly the call of `command`, with two arguments, the
identifier and a function of no parameters, followed by the calls of the `n`
runs: one call of `getSelectedDocument` without arguments in each run, and, in
each run in which the provider returned some `d`, one call of `syncTextStyles`
with `[d]` after it, none in a run in which the provider threw.  So the provider
is called exactly `n` times and the routine at most `n` times, and exactly `n`
times if and only if the provider returns normally in every run. -/
theorem sync_works_through_harness {σ : Type} (n : Nat)
    (h : List (Arg σ) → Run σ Value) (p r : List Value → σ → Except Value Value × σ)
    (s : Host σ) (hh : Runs n h) :
    (sync (doubles h p r) s).2.calls =
        s.calls ++ Call.command
          [Shape.value (Value.string "commands/type/sync"), Shape.function 0] ::
          runsTrace p r n s.world ∧
      commandCalls (sync (doubles h p r) s).2.calls =
        commandCalls s.calls ++
          [[Shape.value (Value.string "commands/type/sync"), Shape.function 0]] ∧
      getSelectedDocumentCalls (sync (doubles h p r) s).2.calls =
        getSelectedDocumentCalls s.calls ++ List.replicate n [] ∧
      (syncTextStylesCalls (sync (doubles h p r) s).2.calls).length ≤
        (syncTextStylesCalls s.calls).length + n ∧
      ((syncTextStylesCalls (sync (doubles h p r) s).2.calls).length =
          (syncTextStylesCalls s.calls).length + n ↔
        returnsInEveryRun p r n s.world = true) := by
  have hc : (sync (doubles h p r) s).2.calls =
      s.calls ++ Call.command
        [Shape.value (Value.string "commands/type/sync"), Shape.function 0] ::
        runsTrace p r n s.world := by
    rw [sync_state, hh, runs_calls]
    simp
  have hle := runsTrace_syncTextStylesCalls_le p r n s.world
  have hiff := runsTrace_syncTextStylesCalls_eq_iff p r n s.world
  refine ⟨hc, sync_commandCalls n h p r s hh, ?_, ?_, ?_⟩
  · rw [hc, getSelectedDocumentCalls_append]
    simp [getSelectedDocumentCalls, runsTrace_getSelectedDocumentCalls]
  · rw [hc, syncTextStylesCalls_append]
    simp only [syncTextStylesCalls, List.length_append]
    omega
  · rw [hc, syncTextStylesCalls_append, ← hiff]
    simp only [syncTextStylesCalls, List.length_append]
    omega

theorem sync_works_through_harness_witness :
    Runs 3 (repeating 3 : List (Arg Nat) → Run Nat Value) ∧
      (flakyProvider [] 103).1 = Except.error (Value.string "no document") ∧
      runsTrace flakyProvider countingRoutine 3 freshHost.world =
        [Call.getSelectedDocument [], Call.syncTextStyles [Value.object 3],
          Call.getSelectedDocument [],
          Call.getSelectedDocument [], Call.syncTextStyles [Value.object 104]] ∧
      returnsInEveryRun flakyProvider countingRoutine 3 freshHost.world = false ∧
      ((sync (doubles (repeating 3) flakyProvider countingRoutine) freshHost).2.calls =
        freshHost.calls ++ Call.command
          [Shape.value (Value.string "commands/type/sync"), Shape.function 0] ::
          runsTrace flakyProvider countingRoutine 3 freshHost.world ∧
      commandCalls
          (sync (doubles (repeating 3) flakyProvider countingRoutine) freshHost).2.calls =
        commandCalls freshHost.calls ++
          [[Shape.value (Value.string "commands/type/sync"), Shape.function 0]] ∧
      getSelectedDocumentCalls
          (sync (doubles (repeating 3) flakyProvider countingRoutine) freshHost).2.calls =
        getSelectedDocumentCalls freshHost.calls ++ List.replicate 3 [] ∧
      (syncTextStylesCalls
          (sync (doubles (repeating 3) flakyProvider countingRoutine)
            freshHost).2.calls).length ≤
        (syncTextStylesCalls freshHost.calls).length + 3 ∧
      ((syncTextStylesCalls
          (sync (doubles (repeating 3) flakyProvider countingRoutine)
            freshHost).2.calls).length =
          (syncTextStylesCalls freshHost.calls).length + 3 ↔
        returnsInEveryRun flakyProvider countingRoutine 3 freshHost.world = true)) :=
  ⟨repeating_runs 3, rfl, rfl, rfl,
    sync_works_through_harness 3 (repeating 3) flakyProvider countingRoutine freshHost
      (repeating_runs 3)⟩

end CarbonSketch
